import Mathlib

/-!
Verification of the TCP stream-socket lifecycle layer (`init.rs`, `listen.rs`
under `kernel/src/net/socket/ip/stream/`): the `InitStream` bind/connect/listen
transitions and the `ListenStream` backlog management with `try_accept`.

External collaborators (the packet-engine interface `aster_bigtcp`, the
`Pollee`/observer machinery, `bind_socket`/`get_ephemeral_endpoint` from
`common.rs`, and `ConnectingStream::new` from `connecting.rs`) are modelled at
their interface boundary: each fallible external call takes an explicit
outcome parameter, so theorems quantify over all external behaviours.
Panics (a failing `unwrap` or a failing `debug_assert!`) are modelled as an
explicit result constructor, never collapsed into an error return.
-/

namespace AsterinasNet

/-- An IP endpoint: address and port (`aster_bigtcp::wire::IpEndpoint`). -/
structure IpEndpoint where
  addr : Nat
  port : Nat
deriving DecidableEq, Repr

/-- The raw TCP state of a socket (`aster_bigtcp::socket::TcpState`,
mirroring the smoltcp TCP state machine). -/
inductive TcpState where
  | Closed
  | Listen
  | SynSent
  | SynReceived
  | Established
  | FinWait1
  | FinWait2
  | CloseWait
  | Closing
  | LastAck
  | TimeWait
deriving DecidableEq, Repr

/-- Modelled from the spec: the raw-state inspection predicate `may_send` of
the external packet engine is the "handshake complete" signal — it holds
exactly when the connection has reached the fully-established condition
(the transmit half is open: `Established`, or `CloseWait` after the peer
closed its half), and never in the `SynSent`/`SynReceived` half-open states. -/
def TcpState.may_send : TcpState → Bool
  | .Established => true
  | .CloseWait => true
  | _ => false

/-- The raw socket state visible through `raw_with` on a bound socket:
its TCP state, its remote endpoint (if a peer has connected), and the two
inheritable options read by `BacklogSocket::new`. -/
structure RawTcpSocket where
  state : TcpState
  remoteEndpoint : Option IpEndpoint
  keepAlive : Bool
  nagleEnabled : Bool
deriving DecidableEq, Repr

/-- Shorthand for `raw_with(|socket| socket.may_send())`. -/
def RawTcpSocket.may_send (s : RawTcpSocket) : Bool :=
  s.state.may_send

/-- Modelled from the spec: "remote endpoint (becomes known once a peer
connects)" — a raw socket whose handshake has completed (`may_send`) has a
known remote endpoint. This is the interface invariant of the external
packet engine that `try_accept` relies on. -/
def RawTcpSocket.handshakeConsistent (s : RawTcpSocket) : Bool :=
  !s.may_send || s.remoteEndpoint.isSome

/-- A bound socket handle of the external network-stack library
(`BoundTcpSocket`): its local endpoint (an `Option`, queried by
`local_endpoint()`) and its raw state. -/
structure BoundTcpSocket where
  localEndpoint : Option IpEndpoint
  raw : RawTcpSocket
deriving DecidableEq, Repr

/-- An unbound socket resource (`UnboundTcpSocket`), carrying the options
that can be set before binding. -/
structure UnboundTcpSocket where
  keepAlive : Bool
  nagleEnabled : Bool
deriving DecidableEq, Repr

/-- POSIX-style error numbers appearing in this layer. -/
inductive Errno where
  | EINVAL
  | EAGAIN
  | EADDRINUSE
  | ENOBUFS
deriving DecidableEq, Repr

/-- Source `Error::with_message(errno, message)`. -/
structure Error where
  errno : Errno
  message : String
deriving DecidableEq, Repr

/-- Source `aster_bigtcp::errors::tcp::ListenError`. -/
inductive ListenError where
  | Unaddressable
  | InvalidState
deriving DecidableEq, Repr

/-- The externally decided outcomes consumed by one `BacklogSocket::new`
call: whether `iface.bind_tcp(...)` succeeds, and whether the subsequent
`bound_socket.listen(local_endpoint)` succeeds. -/
structure BindTcpOutcome where
  bindResult : Except Error Unit
  listenResult : Except ListenError Unit

/-- Decides whether an external-call result is a success. -/
def exceptOk {ε α : Type} : Except ε α → Bool
  | .ok _ => true
  | .error _ => false

/-- The readiness-event set reported to the polling layer (`IoEvents`),
restricted to the flags this layer produces. -/
structure IoEvents where
  hasIn : Bool
  hasOut : Bool
  hasHup : Bool
deriving DecidableEq, Repr

/-- The empty event set `IoEvents::empty()`. -/
def IoEvents.empty : IoEvents := ⟨false, false, false⟩

/-- The event `IoEvents::IN`. -/
def IoEvents.IN : IoEvents := ⟨true, false, false⟩

/-- The event `IoEvents::OUT`. -/
def IoEvents.OUT : IoEvents := ⟨false, true, false⟩

/-- The event `IoEvents::HUP`. -/
def IoEvents.HUP : IoEvents := ⟨false, false, true⟩

/-- Union of event sets (the `|` operator on `IoEvents`). -/
def IoEvents.union (a b : IoEvents) : IoEvents :=
  ⟨a.hasIn || b.hasIn, a.hasOut || b.hasOut, a.hasHup || b.hasHup⟩

/-- A backlog socket (`BacklogSocket` in `listen.rs`): one pre-bound,
pre-listening socket owned by a `ListenStream`. -/
structure BacklogSocket where
  bound_socket : BoundTcpSocket
deriving DecidableEq, Repr

/-- Source `BacklogSocket::can_accept`: the backlog socket is ready to be
accepted exactly when its raw socket reports `may_send` (handshake
complete). Source: `self.bound_socket.raw_with(|socket| socket.may_send())`. -/
def BacklogSocket.can_accept (s : BacklogSocket) : Bool :=
  s.bound_socket.raw.may_send

/-- Source `BacklogSocket::remote_endpoint`: the raw socket's remote endpoint. -/
def BacklogSocket.remote_endpoint (s : BacklogSocket) : Option IpEndpoint :=
  s.bound_socket.raw.remoteEndpoint

/-- Source `BacklogSocket::into_bound_socket`: extracts the owned bound socket. -/
def BacklogSocket.into_bound_socket (s : BacklogSocket) : BoundTcpSocket :=
  s.bound_socket

/-- Source `BacklogSocket::new(bound_socket, pollee)`: requires the parent socket
to have a resolvable local endpoint (else `EINVAL`), then builds a fresh
unbound socket inheriting `keep_alive` and `nagle_enabled`, binds it via
the interface at the same port with reuse permitted (external, may fail),
and puts it into the listening sub-state (external, may fail with
`Unaddressable` or `InvalidState`, each surfaced as a distinct `EINVAL`).
On success the new socket listens at the parent's local endpoint with no
remote peer yet. -/
def BacklogSocket.new (bound_socket : BoundTcpSocket) (env : BindTcpOutcome) :
    Except Error BacklogSocket :=
  match bound_socket.localEndpoint with
  | none => .error ⟨.EINVAL, "the socket is not bound"⟩
  | some local_endpoint =>
    match env.bindResult with
    | .error err => .error err
    | .ok _ =>
      match env.listenResult with
      | .error .Unaddressable => .error ⟨.EINVAL, "the listening address is invalid"⟩
      | .error .InvalidState => .error ⟨.EINVAL, "the listening socket is invalid"⟩
      | .ok _ =>
          .ok ⟨{ localEndpoint := some local_endpoint,
                 raw := { state := .Listen,
                          remoteEndpoint := none,
                          keepAlive := bound_socket.raw.keepAlive,
                          nagleEnabled := bound_socket.raw.nagleEnabled } }⟩

/-- The listen state (`ListenStream`): the clamped backlog capacity, the
canonical bound socket holding the port, and the backlog collection
(the contents of the `RwLock<Vec<BacklogSocket>>`). -/
structure ListenStream where
  backlog : Nat
  bound_socket : BoundTcpSocket
  backlog_sockets : List BacklogSocket
deriving DecidableEq, Repr

/-- The loop body of `fill_backlog_sockets`: `fuel` remaining creations,
`i` the index of the next creation (used to consult the per-call external
outcome `env i`), `acc` the sockets pushed so far. A creation failure
aborts the loop with that error, keeping `acc` implicit in the caller. -/
def fillFrom (bound : BoundTcpSocket) (env : Nat → BindTcpOutcome) :
    List BacklogSocket → Nat → Nat → Except Error (List BacklogSocket)
  | acc, _, 0 => .ok acc
  | acc, i, fuel + 1 =>
    match BacklogSocket.new bound (env i) with
    | .error e => .error e
    | .ok sock => fillFrom bound env (acc ++ [sock]) (i + 1) fuel

/-- Source `ListenStream::fill_backlog_sockets`: if the collection already holds
`backlog` sockets, do nothing; otherwise create sockets one by one (each
consulting the external outcome for its index) until the collection holds
`backlog` sockets, propagating the first creation error. The loop
`for _ in current..backlog` runs `backlog - current` times. -/
def ListenStream.fill_backlog_sockets (s : ListenStream) (env : Nat → BindTcpOutcome) :
    Except Error ListenStream :=
  let backlog := s.backlog
  let current_backlog_len := s.backlog_sockets.length
  if backlog == current_backlog_len then
    .ok s
  else
    match fillFrom s.bound_socket env s.backlog_sockets current_backlog_len
        (backlog - current_backlog_len) with
    | .error e => .error e
    | .ok l => .ok { s with backlog_sockets := l }

/-- Source `ListenStream::new(bound_socket, backlog, pollee)`: clamps the
requested backlog to `SOMAXCONN = 4096`, builds the stream with an empty
collection, and performs the initial fill; on a fill error the original
bound socket is handed back with the error. -/
def ListenStream.new (bound_socket : BoundTcpSocket) (backlog : Nat)
    (env : Nat → BindTcpOutcome) :
    Except (Error × BoundTcpSocket) ListenStream :=
  let SOMAXCONN : Nat := 4096
  let somaxconn := min SOMAXCONN backlog
  let listen_stream : ListenStream :=
    { backlog := somaxconn, bound_socket := bound_socket, backlog_sockets := [] }
  match listen_stream.fill_backlog_sockets env with
  | .error err => .error (err, listen_stream.bound_socket)
  | .ok s => .ok s

/-- An established connection (`ConnectedStream`), as far as this layer
constructs it: the promoted bound socket, the peer endpoint, and the
third constructor argument (passed as `false` by `try_accept`). -/
structure ConnectedStream where
  bound_socket : BoundTcpSocket
  remote_endpoint : IpEndpoint
  fresh : Bool
deriving DecidableEq, Repr

/-- Result of `ListenStream::try_accept`: success carries the new
`ConnectedStream` and the updated listen state; failure carries the error
and the (unchanged) listen state; `panicked` marks a failing `unwrap` or
an out-of-bounds `Vec::remove`. -/
inductive AcceptResult where
  | ok (conn : ConnectedStream) (s : ListenStream)
  | err (e : Error) (s : ListenStream)
  | panicked
deriving DecidableEq, Repr

/-- Source `Iterator::position`: index of the first element satisfying `p`. -/
def position {α : Type} (p : α → Bool) : List α → Option Nat
  | [] => none
  | x :: xs => if p x then some 0 else (position p xs).map (· + 1)

/-- Source `ListenStream::try_accept(pollee)`: finds the first backlog socket
whose handshake is complete (`can_accept`); if none, fails with `EAGAIN`
("no pending connection is available") leaving the collection unchanged.
Otherwise removes it (`Vec::remove(index)`), best-effort creates and
pushes one replacement (its creation failure is ignored), then promotes
the removed socket: `remote_endpoint().unwrap()` — a missing remote
endpoint at this point is a panic, modelled as `.panicked`. -/
def ListenStream.try_accept (s : ListenStream) (env : BindTcpOutcome) : AcceptResult :=
  match position BacklogSocket.can_accept s.backlog_sockets with
  | none => .err ⟨.EAGAIN, "no pending connection is available"⟩ s
  | some index =>
    match s.backlog_sockets[index]? with
    | none => .panicked
    | some active_backlog_socket =>
      let after_remove := s.backlog_sockets.eraseIdx index
      let after_refill :=
        match BacklogSocket.new s.bound_socket env with
        | .ok backlog_socket => after_remove ++ [backlog_socket]
        | .error _ => after_remove
      match active_backlog_socket.remote_endpoint with
      | none => .panicked
      | some remote_endpoint =>
          .ok ⟨active_backlog_socket.into_bound_socket, remote_endpoint, false⟩
             { s with backlog_sockets := after_refill }

/-- Source `ListenStream::check_io_events`: `IN` exactly when some backlog entry
is accept-ready. -/
def ListenStream.check_io_events (s : ListenStream) : IoEvents :=
  if s.backlog_sockets.any (fun socket => socket.can_accept) then
    IoEvents.IN
  else
    IoEvents.empty

/-- The init state (`InitStream` in `init.rs`): a stream socket before
any connection exists, either unbound or bound. -/
inductive InitStream where
  | Unbound (socket : UnboundTcpSocket)
  | Bound (bound_socket : BoundTcpSocket)
deriving DecidableEq, Repr

/-- Whether an init state is in the `Bound` variant. -/
def InitStream.isBound : InitStream → Bool
  | .Unbound _ => false
  | .Bound _ => true

/-- Modelled from the spec: `bind_socket` of `common.rs` (not under the
examined sources) — `bind(..., config) -> Result<BoundSocket, (Error, UnboundSocket)>`:
on success it yields a socket bound to the requested endpoint, inheriting
the unbound socket's options and with no connection yet; on failure it
hands the unbound socket back with the error. The external success or
failure of the interface's `bind_tcp` is the `env` parameter. -/
def bind_socket (unbound_socket : UnboundTcpSocket) (endpoint : IpEndpoint)
    (_can_reuse : Bool) (env : Except Error Unit) :
    Except (Error × UnboundTcpSocket) BoundTcpSocket :=
  match env with
  | .error e => .error (e, unbound_socket)
  | .ok _ =>
      .ok { localEndpoint := some endpoint,
            raw := { state := .Closed,
                     remoteEndpoint := none,
                     keepAlive := unbound_socket.keepAlive,
                     nagleEnabled := unbound_socket.nagleEnabled } }

/-- Source `InitStream::bind(endpoint, can_reuse, observer)`: fails with `EINVAL`
("the socket is already bound to an address") when already bound, handing
the original `Bound` value back; otherwise delegates to `bind_socket`,
re-wrapping its failure as an `Unbound` init state. -/
def InitStream.bind (s : InitStream) (endpoint : IpEndpoint) (can_reuse : Bool)
    (env : Except Error Unit) :
    Except (Error × InitStream) BoundTcpSocket :=
  match s with
  | .Bound bound_socket =>
      .error (⟨.EINVAL, "the socket is already bound to an address"⟩,
              .Bound bound_socket)
  | .Unbound unbound_socket =>
      match bind_socket unbound_socket endpoint can_reuse env with
      | .ok bound_socket => .ok bound_socket
      | .error (err, u) => .error (err, .Unbound u)

/-- A socket mid-handshake (`ConnectingStream`), as far as this layer
constructs it. -/
structure ConnectingStream where
  bound_socket : BoundTcpSocket
  remote_endpoint : IpEndpoint
deriving DecidableEq, Repr

/-- Modelled from the spec: `ConnectingStream::new(bound_socket, remote)`
of `connecting.rs` (not under the examined sources) — initiates the
handshake; on failure the bound socket is handed back with the error.
The external outcome is the `env` parameter. -/
def ConnectingStream.new (bound_socket : BoundTcpSocket) (remote : IpEndpoint)
    (env : Except Error Unit) :
    Except (Error × BoundTcpSocket) ConnectingStream :=
  match env with
  | .error e => .error (e, bound_socket)
  | .ok _ => .ok ⟨bound_socket, remote⟩

/-- Source `InitStream::connect(remote_endpoint, pollee)`: when already bound,
initiates the handshake directly; when unbound, first binds to an
ephemeral local endpoint (`get_ephemeral_endpoint`, the external
allocator `eph`, with `can_reuse = false`), propagating a bind failure
as-is (the `?` operator — the paired state is whatever `bind` returned);
a handshake-initiation failure is paired with `Bound`. -/
def InitStream.connect (s : InitStream) (remote_endpoint : IpEndpoint)
    (eph : IpEndpoint → IpEndpoint) (bindEnv : Except Error Unit)
    (connEnv : Except Error Unit) :
    Except (Error × InitStream) ConnectingStream :=
  match s with
  | .Bound bound_socket =>
      match ConnectingStream.new bound_socket remote_endpoint connEnv with
      | .ok c => .ok c
      | .error (err, bs) => .error (err, .Bound bs)
  | .Unbound unbound_socket =>
      match (InitStream.Unbound unbound_socket).bind (eph remote_endpoint) false bindEnv with
      | .error (err, s') => .error (err, s')
      | .ok bound_socket =>
        match ConnectingStream.new bound_socket remote_endpoint connEnv with
        | .ok c => .ok c
        | .error (err, bs) => .error (err, .Bound bs)

/-- Result of `InitStream::listen`: success, typed failure paired with an
init state, or a panic (`debug_assert!(false, ...)` with debug assertions
enabled). -/
inductive ListenCallResult where
  | ok (s : ListenStream)
  | err (e : Error) (s : InitStream)
  | panicked
deriving DecidableEq, Repr

/-- Source `InitStream::listen(backlog, pollee)`: on an unbound socket the source
executes `debug_assert!(false, "listen() without bind() is not implemented")`
— an assertion failure when debug assertions are enabled (the
`debug_assertions` parameter), and otherwise returns `EINVAL` paired with
the original state; on a bound socket it delegates to `ListenStream::new`,
re-wrapping its failure as a `Bound` init state. -/
def InitStream.listen (s : InitStream) (backlog : Nat) (debug_assertions : Bool)
    (env : Nat → BindTcpOutcome) : ListenCallResult :=
  match s with
  | .Unbound unbound_socket =>
      if debug_assertions then
        .panicked
      else
        .err ⟨.EINVAL, "listen() without bind() is not implemented"⟩
            (.Unbound unbound_socket)
  | .Bound bound_socket =>
      match ListenStream.new bound_socket backlog env with
      | .ok listen_stream => .ok listen_stream
      | .error (err, bs) => .err err (.Bound bs)

/-- Source `InitStream::local_endpoint()`: `None` for `Unbound`, else
`Some(bound_socket.local_endpoint().unwrap())`. The outer `Option` models
the `unwrap`: `none` is a panic (the bound socket had no local endpoint),
`some r` is a normal return of `r`. -/
def InitStream.local_endpoint : InitStream → Option (Option IpEndpoint)
  | .Unbound _ => some none
  | .Bound bound_socket =>
      match bound_socket.localEndpoint with
      | some e => some (some e)
      | none => none

/-- Source `InitStream::check_io_events()`: unconditionally `OUT | HUP`. -/
def InitStream.check_io_events (_ : InitStream) : IoEvents :=
  IoEvents.OUT.union IoEvents.HUP

/-- The `EAGAIN` error produced by `try_accept`. -/
def eagainError : Error :=
  ⟨.EAGAIN, "no pending connection is available"⟩

/- Concrete instances used by the witnesses. -/

/-- A concrete local endpoint. -/
def wEp : IpEndpoint := ⟨1, 80⟩

/-- A concrete remote endpoint. -/
def wRemote : IpEndpoint := ⟨2, 5000⟩

/-- A concrete bound socket with a resolvable local endpoint. -/
def wBound : BoundTcpSocket :=
  ⟨some wEp, ⟨.Listen, none, false, true⟩⟩

/-- A concrete unbound socket. -/
def wU : UnboundTcpSocket := ⟨false, true⟩

/-- A concrete error used as an induced external failure. -/
def wErr : Error := ⟨.ENOBUFS, "induced external failure"⟩

/-- An all-success external outcome for one backlog-socket creation. -/
def wOutcomeOk : BindTcpOutcome := ⟨.ok (), .ok ()⟩

/-- An all-success external environment for repeated creations. -/
def wEnvOk : Nat → BindTcpOutcome := fun _ => wOutcomeOk

/-- An external environment whose creations succeed only at index 0. -/
def wEnvFail1 : Nat → BindTcpOutcome := fun n =>
  if n = 0 then wOutcomeOk else ⟨.error wErr, .ok ()⟩

/-- The backlog socket produced by `BacklogSocket.new wBound wOutcomeOk`. -/
def wBacklogSock : BacklogSocket :=
  ⟨⟨some wEp, ⟨.Listen, none, false, true⟩⟩⟩

/-- A raw socket state of a completed handshake with a known peer. -/
def wReadyRaw : RawTcpSocket := ⟨.Established, some wRemote, false, true⟩

/-- A backlog socket whose handshake is complete. -/
def wReadySock : BacklogSocket := ⟨⟨some wEp, wReadyRaw⟩⟩

/-- A backlog socket stuck in `SynReceived` (half-open). -/
def wSynSock : BacklogSocket := ⟨⟨some wEp, ⟨.SynReceived, some wRemote, false, true⟩⟩⟩

/-- A listen state holding one ready backlog socket. -/
def wStream2 : ListenStream := ⟨1, wBound, [wReadySock]⟩

/-- The listen state left after accepting from `wStream2` with a
successful replacement creation. -/
def wStream2' : ListenStream := ⟨1, wBound, [wBacklogSock]⟩

/-- The connection produced by accepting from `wStream2`. -/
def wConn : ConnectedStream := ⟨⟨some wEp, wReadyRaw⟩, wRemote, false⟩

/-- A listen state holding one half-open (not ready) backlog socket. -/
def wStream0 : ListenStream := ⟨1, wBound, [wSynSock]⟩

/-- The listen state produced by `ListenStream.new wBound 2 wEnvOk`. -/
def wStreamNew : ListenStream := ⟨2, wBound, [wBacklogSock, wBacklogSock]⟩

/-- A first-match search finds nothing iff no element satisfies the test. -/
theorem position_eq_none {α : Type} (p : α → Bool) :
    ∀ l : List α, position p l = none ↔ ∀ x ∈ l, p x = false := by
  intro l
  induction l with
  | nil => simp [position]
  | cons a as ih =>
    by_cases ha : p a
    · simp [position, ha]
    · have ha' : p a = false := by simpa using ha
      simp [position, ha', Option.map_eq_none', ih]

/-- A successful first-match search returns the index of an element that
satisfies the test. -/
theorem position_eq_some {α : Type} (p : α → Bool) :
    ∀ (l : List α) (i : Nat), position p l = some i →
      ∃ x, l[i]? = some x ∧ p x = true ∧ x ∈ l ∧ i < l.length := by
  intro l
  induction l with
  | nil => intro i h; simp [position] at h
  | cons a as ih =>
    intro i h
    by_cases ha : p a
    · simp only [position, ha, if_true] at h
      cases h
      exact ⟨a, by simp, ha, List.mem_cons_self a as, Nat.succ_pos _⟩
    · simp only [position, ha, if_false] at h
      cases hpos : position p as with
      | none => rw [hpos] at h; simp at h
      | some j =>
        rw [hpos] at h
        simp only [Option.map_some'] at h
        cases h
        obtain ⟨x, hx, hpx, hmem, hlt⟩ := ih j hpos
        exact ⟨x, by simpa using hx, hpx, List.mem_cons_of_mem a hmem,
          by simpa using Nat.succ_lt_succ hlt⟩

/-- A fully successful fill loop appends exactly `fuel` sockets. -/
theorem fillFrom_ok_length (bound : BoundTcpSocket) (env : Nat → BindTcpOutcome) :
    ∀ (fuel i : Nat) (acc l : List BacklogSocket),
      fillFrom bound env acc i fuel = .ok l → l.length = acc.length + fuel := by
  intro fuel
  induction fuel with
  | zero =>
    intro i acc l h
    simp only [fillFrom, Except.ok.injEq] at h
    subst h
    simp
  | succ n ih =>
    intro i acc l h
    simp only [fillFrom] at h
    cases hnew : BacklogSocket.new bound (env i) with
    | error e => rw [hnew] at h; cases h
    | ok sock =>
      rw [hnew] at h
      have hlen := ih (i + 1) (acc ++ [sock]) l h
      simp only [List.length_append, List.length_cons, List.length_nil] at hlen
      omega

/-- The fill loop propagates the first creation error. -/
theorem fillFrom_first_error (bound : BoundTcpSocket) (env : Nat → BindTcpOutcome) :
    ∀ (fuel k i : Nat) (acc : List BacklogSocket) (e : Error),
      k < fuel →
      (∀ j, j < k → exceptOk (BacklogSocket.new bound (env (i + j))) = true) →
      BacklogSocket.new bound (env (i + k)) = .error e →
      fillFrom bound env acc i fuel = .error e := by
  intro fuel
  induction fuel with
  | zero => intro k i acc e hk; omega
  | succ n ih =>
    intro k i acc e hk hok herr
    simp only [fillFrom]
    cases k with
    | zero =>
      simp only [Nat.add_zero] at herr
      rw [herr]
    | succ m =>
      have h0 := hok 0 (Nat.succ_pos m)
      simp only [Nat.add_zero] at h0
      cases hnew : BacklogSocket.new bound (env i) with
      | error e' => rw [hnew] at h0; simp [exceptOk] at h0
      | ok sock =>
        show fillFrom bound env (acc ++ [sock]) (i + 1) n = Except.error e
        apply ih m (i + 1) (acc ++ [sock]) e (Nat.lt_of_succ_lt_succ hk)
        · intro j hj
          have := hok (j + 1) (Nat.succ_lt_succ hj)
          have harith : i + (j + 1) = i + 1 + j := by omega
          rwa [harith] at this
        · have harith : i + (m + 1) = i + 1 + m := by omega
          rwa [harith] at herr

/-- A successful fill of an under-filled collection restores the length to
exactly the configured backlog, touching nothing else. -/
theorem fill_ok_spec (s : ListenStream) (env : Nat → BindTcpOutcome)
    (s' : ListenStream) (hle : s.backlog_sockets.length ≤ s.backlog)
    (h : s.fill_backlog_sockets env = .ok s') :
    s'.backlog_sockets.length = s.backlog ∧ s'.backlog = s.backlog ∧
      s'.bound_socket = s.bound_socket := by
  simp only [ListenStream.fill_backlog_sockets] at h
  by_cases heq : s.backlog = s.backlog_sockets.length
  · simp only [heq, beq_self_eq_true, if_true, Except.ok.injEq] at h
    subst h
    exact ⟨heq.symm, rfl, rfl⟩
  · have hne : (s.backlog == s.backlog_sockets.length) = false := by
      simpa using heq
    rw [hne] at h
    simp only [Bool.false_eq_true, if_false] at h
    cases hfill : fillFrom s.bound_socket env s.backlog_sockets
        s.backlog_sockets.length (s.backlog - s.backlog_sockets.length) with
    | error e => rw [hfill] at h; cases h
    | ok l =>
      rw [hfill] at h
      simp only [Except.ok.injEq] at h
      subst h
      have hlen := fillFrom_ok_length s.bound_socket env _ _ _ _ hfill
      refine ⟨?_, rfl, rfl⟩
      simp only [hlen]
      omega

/-- The success branch of `try_accept`, fully characterized: the first ready
socket is removed and promoted, and a single best-effort replacement is
appended when its creation succeeds. -/
theorem try_accept_ok_spec (t : ListenStream) (env : BindTcpOutcome)
    (c : ConnectedStream) (t' : ListenStream)
    (h : t.try_accept env = .ok c t') :
    ∃ i b, position BacklogSocket.can_accept t.backlog_sockets = some i ∧
      t.backlog_sockets[i]? = some b ∧ b.can_accept = true ∧
      i < t.backlog_sockets.length ∧
      c.bound_socket = b.into_bound_socket ∧
      b.remote_endpoint = some c.remote_endpoint ∧
      t'.backlog = t.backlog ∧ t'.bound_socket = t.bound_socket ∧
      t'.backlog_sockets = (t.backlog_sockets.eraseIdx i) ++
        (match BacklogSocket.new t.bound_socket env with
         | .ok nb => [nb]
         | .error _ => []) := by
  simp only [ListenStream.try_accept] at h
  cases hpos : position BacklogSocket.can_accept t.backlog_sockets with
  | none => simp [hpos] at h
  | some i =>
    simp only [hpos] at h
    obtain ⟨b, hb, hcan, _, hlt⟩ := position_eq_some _ _ _ hpos
    simp only [hb] at h
    cases hre : b.remote_endpoint with
    | none => simp [hre] at h
    | some re =>
      simp only [hre, AcceptResult.ok.injEq] at h
      obtain ⟨hc, ht'⟩ := h
      subst ht'
      refine ⟨i, b, rfl, hb, hcan, hlt, ?_, ?_, rfl, rfl, ?_⟩
      · rw [← hc]
      · rw [← hc]
        exact hre
      · cases hnb : BacklogSocket.new t.bound_socket env <;> simp [hnb]

/-- C3 counterexample: `connect` on an Unbound Init State whose implicit
ephemeral bind fails returns the error paired with the original *Unbound*
state (the `?` operator propagates `bind`'s pair unchanged), refuting the
claim that every failing `connect` pairs the error with a Bound Init State. -/
theorem c3_counterexample :
    InitStream.connect (.Unbound wU) wRemote (fun _ => wEp) (.error wErr) (.ok ()) =
      .error (wErr, .Unbound wU) ∧
    (InitStream.Unbound wU).isBound = false :=
  ⟨rfl, rfl⟩

/-- C3 (amended): every failing `connect` pairs the error with an Init State,
so the caller's socket resource is never lost — the original Bound state when
the socket was already bound; the original Unbound state when the implicit
ephemeral bind itself fails; a Bound state when the ephemeral bind succeeded
and the handshake initiation then failed. -/
theorem c3_connect_failure_ownership (s : InitStream) (remote : IpEndpoint)
    (eph : IpEndpoint → IpEndpoint) (bindEnv connEnv : Except Error Unit)
    (e : Error) (s' : InitStream)
    (h : InitStream.connect s remote eph bindEnv connEnv = .error (e, s')) :
    (∀ bs, s = .Bound bs → s' = .Bound bs) ∧
    (∀ u, s = .Unbound u →
      (∀ eb, bindEnv = .error eb → s' = .Unbound u ∧ e = eb) ∧
      (bindEnv = .ok () → s'.isBound = true)) := by
  cases s with
  | Bound bs =>
    cases connEnv with
    | ok v =>
      simp [InitStream.connect, ConnectingStream.new] at h
    | error ec =>
      simp only [InitStream.connect, ConnectingStream.new,
        Except.error.injEq, Prod.mk.injEq] at h
      obtain ⟨he, hs'⟩ := h
      subst he
      subst hs'
      exact ⟨fun bs' hbs => hbs, fun u hu => (nomatch hu)⟩
  | Unbound u0 =>
    cases bindEnv with
    | error eb0 =>
      simp only [InitStream.connect, InitStream.bind, bind_socket,
        Except.error.injEq, Prod.mk.injEq] at h
      obtain ⟨he, hs'⟩ := h
      subst he
      subst hs'
      refine ⟨fun bs hbs => (nomatch hbs), fun u hu => ?_⟩
      cases hu
      refine ⟨fun eb heb => ?_, fun hok => (nomatch hok)⟩
      injection heb with h2
      exact ⟨rfl, h2⟩
    | ok v =>
      cases connEnv with
      | ok w =>
        simp [InitStream.connect, InitStream.bind, bind_socket,
          ConnectingStream.new] at h
      | error ec =>
        simp only [InitStream.connect, InitStream.bind, bind_socket,
          ConnectingStream.new, Except.error.injEq, Prod.mk.injEq] at h
        obtain ⟨he, hs'⟩ := h
        subst he
        subst hs'
        refine ⟨fun bs hbs => (nomatch hbs), fun u hu => ?_⟩
        cases hu
        exact ⟨fun eb heb => (nomatch heb), fun _ => rfl⟩

/-- C3 witness: a bound socket whose handshake initiation fails gets its
Bound state back with the error. -/
theorem c3_witness :
    (InitStream.Bound wBound : InitStream) = .Bound wBound :=
  (c3_connect_failure_ownership (.Bound wBound) wRemote (fun _ => wEp) (.ok ())
      (.error wErr) wErr (.Bound wBound) rfl).1 wBound rfl

/-- C4 counterexample: with debug assertions enabled, `listen` on an Unbound
Init State executes `debug_assert!(false, ...)` — an assertion failure rather
than a typed error return, refuting "never a fatal kernel error (no panic or
assertion failure)". -/
theorem c4_counterexample :
    InitStream.listen (.Unbound wU) 5 true wEnvOk = .panicked := rfl

/-- C4 (amended): with debug assertions disabled (release build), calling
`listen` on an Unbound Init State is always rejected with a typed EINVAL
failure returned together with the original state value, and never panics;
with debug assertions enabled the same call is a failing debug assertion. -/
theorem c4_listen_unbound_release (u : UnboundTcpSocket) (backlog : Nat)
    (env : Nat → BindTcpOutcome) :
    InitStream.listen (.Unbound u) backlog false env =
      .err ⟨.EINVAL, "listen() without bind() is not implemented"⟩ (.Unbound u) := rfl

/-- C5: binding an already-bound Init State always fails with EINVAL
("the socket is already bound to an address"), and the error carries back the
original Bound value unchanged — the existing binding is not mutated. -/
theorem c5_bind_already_bound_guard (bs : BoundTcpSocket) (endpoint : IpEndpoint)
    (can_reuse : Bool) (env : Except Error Unit) :
    InitStream.bind (.Bound bs) endpoint can_reuse env =
      .error (⟨.EINVAL, "the socket is already bound to an address"⟩, .Bound bs) := rfl

/-- C6: a Backlog Socket is accept-ready exactly when its underlying raw
socket's `may_send` predicate holds; a socket whose handshake has only
reached SYN sent or SYN received is never accept-ready. -/
theorem c6_accept_promotion :
    (∀ b : BacklogSocket, b.can_accept = b.bound_socket.raw.may_send) ∧
    (∀ b : BacklogSocket,
      b.bound_socket.raw.state = .SynSent ∨ b.bound_socket.raw.state = .SynReceived →
      b.can_accept = false) := by
  refine ⟨fun b => rfl, fun b hb => ?_⟩
  cases hb with
  | inl h => simp [BacklogSocket.can_accept, RawTcpSocket.may_send, h, TcpState.may_send]
  | inr h => simp [BacklogSocket.can_accept, RawTcpSocket.may_send, h, TcpState.may_send]

/-- C6 witness: a socket in `SynReceived` is not accept-ready. -/
theorem c6_witness : wSynSock.can_accept = false :=
  c6_accept_promotion.2 wSynSock (Or.inr rfl)

/-- C8: every Init State reports exactly the event set {OUT, HUP}; and
`local_endpoint` returns (without panicking) `None` exactly for `Unbound`
and `Some(endpoint)` for `Bound`, given the Bound invariant that the bound
socket has a resolvable local endpoint. -/
theorem c8_init_events_and_endpoint (s : InitStream) :
    s.check_io_events = IoEvents.OUT.union IoEvents.HUP ∧
    s.check_io_events = ⟨false, true, true⟩ ∧
    (∀ u, s = .Unbound u → s.local_endpoint = some none) ∧
    (∀ bs endpoint, s = .Bound bs → bs.localEndpoint = some endpoint →
      s.local_endpoint = some (some endpoint)) := by
  refine ⟨rfl, rfl, fun u hu => ?_, fun bs endpoint hbs hep => ?_⟩
  · subst hu
    rfl
  · subst hbs
    simp [InitStream.local_endpoint, hep]

/-- C8 witness: a concrete bound socket reports its reserved endpoint and
the {OUT, HUP} event set. -/
theorem c8_witness :
    (InitStream.Bound wBound).local_endpoint = some (some wEp) ∧
    (InitStream.Bound wBound).check_io_events = ⟨false, true, true⟩ :=
  ⟨(c8_init_events_and_endpoint (.Bound wBound)).2.2.2 wBound wEp rfl rfl,
   (c8_init_events_and_endpoint (.Bound wBound)).2.1⟩

/-- C1: for every requested backlog capacity C, a successfully constructed
Listen State's backlog collection has length exactly min(C, 4096); and every
successful `try_accept` from a state at that length whose replacement-socket
creation succeeds restores the collection length to min(C, 4096). -/
theorem c1_backlog_capacity (bound : BoundTcpSocket) (C : Nat)
    (env : Nat → BindTcpOutcome) (s : ListenStream)
    (hnew : ListenStream.new bound C env = .ok s) :
    s.backlog_sockets.length = min C 4096 ∧
    (∀ (t : ListenStream) (env2 : BindTcpOutcome) (c : ConnectedStream)
        (t' : ListenStream),
      t.backlog_sockets.length = min C 4096 →
      exceptOk (BacklogSocket.new t.bound_socket env2) = true →
      t.try_accept env2 = .ok c t' →
      t'.backlog_sockets.length = min C 4096) := by
  constructor
  · simp only [ListenStream.new] at hnew
    cases hfill : ListenStream.fill_backlog_sockets
        { backlog := min 4096 C, bound_socket := bound, backlog_sockets := [] } env with
    | error e => simp [hfill] at hnew
    | ok s0 =>
      simp only [hfill, Except.ok.injEq] at hnew
      subst hnew
      obtain ⟨h1, _, _⟩ := fill_ok_spec _ env _ (by simp) hfill
      simp only [h1]
      exact Nat.min_comm 4096 C
  · intro t env2 c t' hlen hok ht
    obtain ⟨i, b, hpos, hb, hcan, hlt, _, _, _, _, hsock⟩ :=
      try_accept_ok_spec t env2 c t' ht
    cases hnb : BacklogSocket.new t.bound_socket env2 with
    | error e => rw [hnb] at hok; simp [exceptOk] at hok
    | ok nb =>
      simp only [hnb] at hsock
      have hlen' : t'.backlog_sockets.length =
          (t.backlog_sockets.eraseIdx i).length + 1 := by
        simp [hsock]
      have herase := List.length_eraseIdx_add_one hlt
      omega

/-- C1 witness: requested capacity 2 yields a backlog of length min(2, 4096). -/
theorem c1_witness : wStreamNew.backlog_sockets.length = min 2 4096 :=
  (c1_backlog_capacity wBound 2 wEnvOk wStreamNew rfl).1

/-- C2: `try_accept` fails (with EAGAIN, "no pending connection is available",
and the state unchanged) exactly when no backlog socket has a completed
handshake; on success the first ready socket is removed from the collection
and promoted, with at most one freshly created replacement appended. -/
theorem c2_try_accept_eagain (s : ListenStream) (env : BindTcpOutcome) :
    ((∀ b ∈ s.backlog_sockets, b.can_accept = false) ↔
      s.try_accept env = .err eagainError s) ∧
    (∀ e t, s.try_accept env = .err e t → e = eagainError ∧ t = s ∧
      ∀ b ∈ s.backlog_sockets, b.can_accept = false) ∧
    (∀ c t, s.try_accept env = .ok c t →
      ∃ i b, position BacklogSocket.can_accept s.backlog_sockets = some i ∧
        s.backlog_sockets[i]? = some b ∧ b.can_accept = true ∧
        c.bound_socket = b.into_bound_socket ∧
        t.backlog_sockets = (s.backlog_sockets.eraseIdx i) ++
          (match BacklogSocket.new s.bound_socket env with
           | .ok nb => [nb]
           | .error _ => [])) := by
  have herr : ∀ e t, s.try_accept env = .err e t →
      position BacklogSocket.can_accept s.backlog_sockets = none ∧
      e = eagainError ∧ t = s := by
    intro e t h
    simp only [ListenStream.try_accept] at h
    cases hpos : position BacklogSocket.can_accept s.backlog_sockets with
    | none =>
      simp only [hpos, AcceptResult.err.injEq] at h
      exact ⟨rfl, h.1.symm, h.2.symm⟩
    | some i =>
      obtain ⟨b, hb, hcan, _, hlt⟩ := position_eq_some _ _ _ hpos
      simp only [hpos, hb] at h
      cases hre : b.remote_endpoint with
      | none => simp [hre] at h
      | some re => simp [hre] at h
  refine ⟨⟨?_, ?_⟩, ?_, ?_⟩
  · intro hall
    have hpos : position BacklogSocket.can_accept s.backlog_sockets = none :=
      (position_eq_none _ _).mpr hall
    simp only [ListenStream.try_accept, hpos]
    rfl
  · intro h
    obtain ⟨hpos, _, _⟩ := herr _ _ h
    exact (position_eq_none _ _).mp hpos
  · intro e t h
    obtain ⟨hpos, he, ht⟩ := herr e t h
    exact ⟨he, ht, (position_eq_none _ _).mp hpos⟩
  · intro c t h
    obtain ⟨i, b, hpos, hb, hcan, _, hcb, _, _, _, hsock⟩ :=
      try_accept_ok_spec s env c t h
    exact ⟨i, b, hpos, hb, hcan, hcb, hsock⟩

/-- C2 witness: a backlog holding only a half-open socket makes `try_accept`
fail with EAGAIN, leaving the state unchanged. -/
theorem c2_witness : wStream0.try_accept wOutcomeOk = .err eagainError wStream0 :=
  ((c2_try_accept_eagain wStream0 wOutcomeOk).1).mp (by decide)

/-- C7: if a backlog-socket creation fails during the initial fill at listen
time, `ListenStream::new` fails as a whole and the error carries back the
original bound socket — every construction error hands back exactly the
original bound socket, so no partially filled Listen State is ever returned. -/
theorem c7_no_partial_listen_state (bound : BoundTcpSocket) (C : Nat)
    (env : Nat → BindTcpOutcome) :
    (∀ e b, ListenStream.new bound C env = .error (e, b) → b = bound) ∧
    (∀ i, i < min 4096 C →
      (∀ j, j < i → exceptOk (BacklogSocket.new bound (env j)) = true) →
      ∀ e, BacklogSocket.new bound (env i) = .error e →
        ListenStream.new bound C env = .error (e, bound)) := by
  constructor
  · intro e b h
    simp only [ListenStream.new] at h
    cases hfill : ListenStream.fill_backlog_sockets
        { backlog := min 4096 C, bound_socket := bound, backlog_sockets := [] } env with
    | error e0 =>
      simp only [hfill, Except.error.injEq, Prod.mk.injEq] at h
      exact h.2.symm
    | ok s0 => simp [hfill] at h
  · intro i hi hok e herr
    have hfillerr : fillFrom bound env ([] : List BacklogSocket) 0 (min 4096 C) =
        .error e := by
      apply fillFrom_first_error bound env (min 4096 C) i 0 [] e hi
      · intro j hj
        simpa using hok j hj
      · simpa using herr
    have hfill : ListenStream.fill_backlog_sockets
        { backlog := min 4096 C, bound_socket := bound, backlog_sockets := [] } env =
        .error e := by
      have h0 : ((min 4096 C : Nat) == (0 : Nat)) = false := by
        simp only [beq_eq_false_iff_ne, ne_eq]
        omega
      simp only [ListenStream.fill_backlog_sockets, List.length_nil, h0,
        Bool.false_eq_true, if_false, Nat.sub_zero]
      rw [hfillerr]
    simp only [ListenStream.new, hfill]

/-- C7 witness: with creation failing at index 1, listening with backlog 3
fails and hands the original bound socket back with the induced error. -/
theorem c7_witness : ListenStream.new wBound 3 wEnvFail1 = .error (wErr, wBound) :=
  (c7_no_partial_listen_state wBound 3 wEnvFail1).2 1 (by decide) (by decide) wErr rfl

/-- C9: if every backlog socket satisfies the packet-engine interface
invariant (a completed handshake implies a known remote endpoint), then
`try_accept` never panics — in particular the `unwrap` of the accepted
socket's remote endpoint on the success path is safe. -/
theorem c9_accept_unwrap_never_panics (s : ListenStream) (env : BindTcpOutcome)
    (h : ∀ b ∈ s.backlog_sockets, b.bound_socket.raw.handshakeConsistent = true) :
    s.try_accept env ≠ .panicked := by
  intro hpan
  simp only [ListenStream.try_accept] at hpan
  cases hpos : position BacklogSocket.can_accept s.backlog_sockets with
  | none => simp [hpos] at hpan
  | some i =>
    obtain ⟨b, hb, hcan, hmem, hlt⟩ := position_eq_some _ _ _ hpos
    simp only [hpos, hb] at hpan
    have hcons := h b hmem
    simp only [RawTcpSocket.handshakeConsistent] at hcons
    have hms : b.bound_socket.raw.may_send = true := hcan
    rw [hms] at hcons
    simp only [Bool.not_true, Bool.false_or] at hcons
    cases hre : b.bound_socket.raw.remoteEndpoint with
    | none => rw [hre] at hcons; simp at hcons
    | some re =>
      have hre' : b.remote_endpoint = some re := hre
      simp [hre'] at hpan

/-- C9 witness: accepting from a backlog holding one established socket with
a known peer does not panic. -/
theorem c9_witness : wStream2.try_accept wOutcomeOk ≠ .panicked :=
  c9_accept_unwrap_never_panics wStream2 wOutcomeOk (by decide)

/-- C10: the backlog collection's length never exceeds the configured clamped
capacity: construction, `fill_backlog_sockets`, and `try_accept` each
establish or preserve `backlog_sockets.length ≤ backlog`. -/
theorem c10_backlog_never_exceeds_capacity :
    (∀ (bound : BoundTcpSocket) (C : Nat) (env : Nat → BindTcpOutcome)
        (s : ListenStream),
      ListenStream.new bound C env = .ok s →
      s.backlog_sockets.length ≤ s.backlog) ∧
    (∀ (s : ListenStream) (env : Nat → BindTcpOutcome) (s' : ListenStream),
      s.backlog_sockets.length ≤ s.backlog →
      s.fill_backlog_sockets env = .ok s' →
      s'.backlog = s.backlog ∧ s'.backlog_sockets.length ≤ s'.backlog) ∧
    (∀ (s : ListenStream) (env : BindTcpOutcome) (c : ConnectedStream)
        (s' : ListenStream),
      s.backlog_sockets.length ≤ s.backlog →
      s.try_accept env = .ok c s' →
      s'.backlog = s.backlog ∧ s'.backlog_sockets.length ≤ s'.backlog) := by
  refine ⟨?_, ?_, ?_⟩
  · intro bound C env s hnew
    simp only [ListenStream.new] at hnew
    cases hfill : ListenStream.fill_backlog_sockets
        { backlog := min 4096 C, bound_socket := bound, backlog_sockets := [] } env with
    | error e => simp [hfill] at hnew
    | ok s0 =>
      simp only [hfill, Except.ok.injEq] at hnew
      subst hnew
      obtain ⟨h1, h2, _⟩ := fill_ok_spec _ env _ (by simp) hfill
      omega
  · intro s env s' hle hfill
    obtain ⟨h1, h2, _⟩ := fill_ok_spec s env s' hle hfill
    exact ⟨h2, by omega⟩
  · intro s env c s' hle ht
    obtain ⟨i, b, hpos, hb, hcan, hlt, _, _, hbl, _, hsock⟩ :=
      try_accept_ok_spec s env c s' ht
    refine ⟨hbl, ?_⟩
    have herase := List.length_eraseIdx_add_one hlt
    cases hnb : BacklogSocket.new s.bound_socket env with
    | ok nb =>
      simp only [hnb] at hsock
      have hlen' : s'.backlog_sockets.length =
          (s.backlog_sockets.eraseIdx i).length + 1 := by
        simp [hsock]
      rw [hbl]
      omega
    | error e =>
      simp only [hnb] at hsock
      have hlen' : s'.backlog_sockets.length =
          (s.backlog_sockets.eraseIdx i).length := by
        simp [hsock]
      rw [hbl]
      omega

/-- C10 witness: accepting from a full one-slot backlog keeps the length
within the capacity. -/
theorem c10_witness : wStream2'.backlog = wStream2.backlog ∧
    wStream2'.backlog_sockets.length ≤ wStream2'.backlog :=
  c10_backlog_never_exceeds_capacity.2.2 wStream2 wOutcomeOk wConn wStream2'
    (by decide) rfl

end AsterinasNet
